import Mathlib

/-!
Verification of `scripts/faster_whisper_transcribe.py`.

The script wraps an external speech-recognition runtime (faster-whisper).
We embed the script shallowly: the external runtime is an oracle
(`Runtime`) recording whether the library is importable, what session
construction does, and what the inference call yields.  The embedding of
`transcribe_audio` threads an event trace (`RtEvent`) recording the calls
it makes to the oracle, so that claims about which calls happen, how
often, and with which parameters can be stated.  The `__main__` block is
embedded as `main_run`, producing a process result (exit code, stdout
lines, stderr lines, event trace).
-/

/-- Python whitespace for `str.strip()`: the six ASCII whitespace
characters recognised by `str.isspace` on ASCII input. -/
def isPySpace (c : Char) : Bool :=
  c = ' ' || c = '\t' || c = '\n' || c = '\r' || c = '\x0b' || c = '\x0c'

/-- `str.strip()` on the character list: drop whitespace from both ends. -/
def stripList (l : List Char) : List Char :=
  ((l.dropWhile isPySpace).reverse.dropWhile isPySpace).reverse

/-- Python `s.strip()`. -/
def pyStrip (s : String) : String := ⟨stripList s.toList⟩

/-- Python `' '.join(parts)`. -/
def pyJoin : List String → String
  | [] => ""
  | [s] => s
  | s :: rest => s ++ " " ++ pyJoin rest

/-- Lines 43-47 of the script: strip each segment text, join with single
spaces, strip the result once more. -/
def collect_transcript (segs : List String) : String :=
  pyStrip (pyJoin (segs.map pyStrip))

/-- Arguments passed to the `WhisperModel` constructor (lines 26-30). -/
structure ModelArgs where
  model_size : String
  device : String
  compute_type : String
deriving DecidableEq

/-- Arguments passed to `model.transcribe` (lines 33-40). -/
structure TranscribeArgs where
  audio_path : String
  language : String
  beam_size : Nat
  best_of : Nat
  vad_filter : Bool
  min_silence_duration_ms : Nat
deriving DecidableEq

/-- Trace events: the call into `transcribe_audio` itself, each session
construction, and each inference call. -/
inductive RtEvent where
  | invoked (audio_path model_size language : String)
  | constructed (args : ModelArgs)
  | inferred (args : TranscribeArgs)
deriving DecidableEq

/-- Oracle for the external runtime: whether `from faster_whisper import
WhisperModel` succeeds, what the constructor does for given arguments
(`Except.error e` models raising an exception with message `e`), and what
the inference call does (on success, the finite list of segment texts the
lazy generator yields). -/
structure Runtime where
  importable : Bool
  construct : ModelArgs → Except String Unit
  infer : TranscribeArgs → Except String (List String)

/-- Outcome of `transcribe_audio`: a returned transcript, or
`sys.exit(1)` after printing `stderrMsg` to standard error. -/
inductive TranscribeResult where
  | ok (transcript : String)
  | exit1 (stderrMsg : String)
deriving DecidableEq

/-- Line 50 of the script. -/
def importErrorMsg : String :=
  "Error: faster_whisper not installed. Install with: pip install faster-whisper"

/-- Line 53 of the script. -/
def transcribeErrorMsg (e : String) : String :=
  "Error transcribing audio: " ++ e

/-- Embedding of `transcribe_audio(audio_path, model_size, language)`
(lines 10-54).  The try block imports the library, constructs one model,
issues one inference call, and collects the segments; `ImportError`
and any other exception print to standard error and exit 1. -/
def transcribe_audio (rt : Runtime) (audio_path model_size language : String) :
    TranscribeResult × List RtEvent :=
  let ev0 := RtEvent.invoked audio_path model_size language
  if rt.importable then
    let margs : ModelArgs := ⟨model_size, "cpu", "int8"⟩
    match rt.construct margs with
    | .error e => (.exit1 (transcribeErrorMsg e), [ev0, .constructed margs])
    | .ok _ =>
      let targs : TranscribeArgs := ⟨audio_path, language, 1, 1, true, 500⟩
      match rt.infer targs with
      | .error e =>
          (.exit1 (transcribeErrorMsg e), [ev0, .constructed margs, .inferred targs])
      | .ok segs =>
          (.ok (collect_transcript segs), [ev0, .constructed margs, .inferred targs])
  else
    (.exit1 importErrorMsg, [ev0])

/-- The observable result of one process run. -/
structure ProcResult where
  code : Nat
  stdout : List String
  stderr : List String
  events : List RtEvent
deriving DecidableEq

/-- Line 59 of the script. -/
def usageMsg1 : String :=
  "Usage: python3 faster_whisper_transcribe.py <audio_file> [model_size] [language]"

/-- Line 60 of the script. -/
def usageMsg2 : String :=
  "  model_size: tiny, base, small, medium, large-v2 (default: base)"

/-- Line 61 of the script. -/
def usageMsg3 : String :=
  "  language: en, es, fr, etc. (default: en)"

/-- Line 69 of the script. -/
def fileNotFoundMsg (p : String) : String :=
  "Error: Audio file not found: " ++ p

/-- Embedding of the `__main__` block (lines 57-73).  `argv` is the full
`sys.argv` including the program name; `path_exists` models
`os.path.exists`. -/
def main_run (rt : Runtime) (path_exists : String → Bool) (argv : List String) :
    ProcResult :=
  match argv with
  | _ :: audio_file :: rest =>
    let model_size := rest.head?.getD "base"
    let language := (rest.drop 1).head?.getD "en"
    if path_exists audio_file then
      match transcribe_audio rt audio_file model_size language with
      | (.ok t, evs) => ⟨0, [t], [], evs⟩
      | (.exit1 msg, evs) => ⟨1, [], [msg], evs⟩
    else
      ⟨1, [], [fileNotFoundMsg audio_file], []⟩
  | _ =>
    ⟨1, [], [usageMsg1, usageMsg2, usageMsg3], []⟩

/-- A string with no leading or trailing (Python) whitespace. -/
def noEdgeWs (s : String) : Bool :=
  (s.toList.head?.all fun c => !isPySpace c) &&
  (s.toList.getLast?.all fun c => !isPySpace c)

/-- Substring occurrence on character lists. -/
def listContains (needle : List Char) : List Char → Bool
  | [] => needle.isEmpty
  | c :: t => needle.isPrefixOf (c :: t) || listContains needle t

/-- Substring occurrence on strings. -/
def strContains (needle hay : String) : Bool :=
  listContains needle.toList hay.toList

/-- Runtime whose import succeeds, whose constructor succeeds, and whose
inference yields `segs`. -/
def rtOk (segs : List String) : Runtime :=
  ⟨true, fun _ => .ok (), fun _ => .ok segs⟩

/-- Runtime whose import fails. -/
def rtNoImport : Runtime :=
  ⟨false, fun _ => .ok (), fun _ => .ok []⟩

/-- Runtime whose inference call raises. -/
def rtInferRaise (e : String) : Runtime :=
  ⟨true, fun _ => .ok (), fun _ => .error e⟩

/-! ## Helper lemmas about stripping and substring occurrence -/

theorem head_dropWhile_not (p : Char → Bool) (l : List Char) (c : Char)
    (h : (l.dropWhile p).head? = some c) : p c = false := by
  induction l with
  | nil => simp [List.dropWhile] at h
  | cons a t ih =>
    rw [List.dropWhile_cons] at h
    cases hpa : p a with
    | true =>
      rw [hpa] at h
      have h2 : (t.dropWhile p).head? = some c := h
      exact ih h2
    | false =>
      rw [hpa] at h
      have h2 : (a :: t).head? = some c := h
      have h3 : a = c := Option.some.inj h2
      rw [← h3]
      exact hpa

theorem getLast_dropWhile_eq (p : Char → Bool) (l : List Char) :
    l.dropWhile p ≠ [] → (l.dropWhile p).getLast? = l.getLast? := by
  induction l with
  | nil => intro h; simp [List.dropWhile] at h
  | cons a t ih =>
    intro h
    rw [List.dropWhile_cons] at h ⊢
    cases hpa : p a with
    | false => rfl
    | true =>
      rw [hpa] at h
      have h2 : t.dropWhile p ≠ [] := h
      show (t.dropWhile p).getLast? = (a :: t).getLast?
      have ht : t ≠ [] := by
        intro he
        rw [he] at h2
        simp [List.dropWhile] at h2
      rw [ih h2]
      cases t with
      | nil => exact absurd rfl ht
      | cons b u => rw [List.getLast?_cons_cons]

theorem stripList_getLast_ok (l : List Char) :
    ((stripList l).getLast?.all fun c => !isPySpace c) = true := by
  unfold stripList
  rw [List.getLast?_reverse]
  cases hh : ((l.dropWhile isPySpace).reverse.dropWhile isPySpace).head? with
  | none => rfl
  | some c =>
    have hc := head_dropWhile_not isPySpace (l.dropWhile isPySpace).reverse c hh
    simp [hc]

theorem stripList_head_ok (l : List Char) :
    ((stripList l).head?.all fun c => !isPySpace c) = true := by
  unfold stripList
  rw [List.head?_reverse]
  cases hnil : (l.dropWhile isPySpace).reverse.dropWhile isPySpace with
  | nil => rfl
  | cons a t =>
    have hne : (l.dropWhile isPySpace).reverse.dropWhile isPySpace ≠ [] := by
      rw [hnil]; exact List.cons_ne_nil a t
    rw [← hnil, getLast_dropWhile_eq isPySpace _ hne, List.getLast?_reverse]
    cases hh : (l.dropWhile isPySpace).head? with
    | none => rfl
    | some c =>
      have hc := head_dropWhile_not isPySpace l c hh
      simp [hc]

theorem noEdgeWs_pyStrip (s : String) : noEdgeWs (pyStrip s) = true := by
  show (((stripList s.toList).head?.all fun c => !isPySpace c) &&
      ((stripList s.toList).getLast?.all fun c => !isPySpace c)) = true
  rw [stripList_head_ok, stripList_getLast_ok]
  rfl

theorem dropWhile_eq_nil_of_all (p : Char → Bool) (l : List Char) :
    l.all p = true → l.dropWhile p = [] := by
  induction l with
  | nil => intro _; rfl
  | cons a t ih =>
    intro h
    rw [List.all_cons, Bool.and_eq_true] at h
    rw [List.dropWhile_cons, h.1]
    simpa using ih h.2

theorem pyStrip_eq_empty_of_all_space (s : String)
    (h : s.toList.all isPySpace = true) : pyStrip s = "" := by
  have h1 := dropWhile_eq_nil_of_all isPySpace s.toList h
  unfold pyStrip stripList
  rw [h1]
  rfl

theorem isPrefixOf_self (l : List Char) : l.isPrefixOf l = true := by
  induction l with
  | nil => rfl
  | cons a t ih => simp [List.isPrefixOf, ih]

theorem listContains_suffix (pre l : List Char) : listContains l (pre ++ l) = true := by
  induction pre with
  | nil =>
    cases l with
    | nil => rfl
    | cons a t => simp [listContains, isPrefixOf_self]
  | cons p ps ih => simp [listContains, ih]

theorem strContains_suffix (pre s : String) : strContains s (pre ++ s) = true := by
  show listContains s.data (pre ++ s).data = true
  rw [String.data_append]
  exact listContains_suffix pre.data s.data

/-! ## Claim theorems -/

/-- C1: for every finite sequence of segments produced by the external
runtime, `transcribe_audio` returns the segments' texts each trimmed of
leading/trailing whitespace, joined in their original order by a single
space separator, with the joined result trimmed once more. -/
theorem transcribe_audio_joins_trimmed (rt : Runtime) (ap ms lang : String)
    (segs : List String)
    (himp : rt.importable = true)
    (hcon : rt.construct ⟨ms, "cpu", "int8"⟩ = Except.ok ())
    (hinf : rt.infer ⟨ap, lang, 1, 1, true, 500⟩ = Except.ok segs) :
    (transcribe_audio rt ap ms lang).1 =
      TranscribeResult.ok (pyStrip (pyJoin (segs.map pyStrip))) := by
  simp [transcribe_audio, himp, hcon, hinf, collect_transcript]

/-- Witness for C1: the segments `["Hello", " world "]` yield the
transcript `"Hello world"`. -/
theorem transcribe_audio_joins_trimmed_witness :
    (transcribe_audio (rtOk ["Hello", " world "]) "a.wav" "base" "en").1 =
      TranscribeResult.ok "Hello world" := by
  have h := transcribe_audio_joins_trimmed (rtOk ["Hello", " world "]) "a.wav"
      "base" "en" ["Hello", " world "] rfl rfl rfl
  rw [h]
  decide

/-- C2: if the external runtime yields zero segments, `transcribe_audio`
returns normally with the empty string rather than failing. -/
theorem transcribe_audio_zero_segments (rt : Runtime) (ap ms lang : String)
    (himp : rt.importable = true)
    (hcon : rt.construct ⟨ms, "cpu", "int8"⟩ = Except.ok ())
    (hinf : rt.infer ⟨ap, lang, 1, 1, true, 500⟩ = Except.ok []) :
    (transcribe_audio rt ap ms lang).1 = TranscribeResult.ok "" := by
  simp [transcribe_audio, himp, hcon, hinf]
  rfl

/-- Witness for C2: a runtime yielding zero segments at a concrete input. -/
theorem transcribe_audio_zero_segments_witness :
    (transcribe_audio (rtOk []) "a.wav" "base" "en").1 =
      TranscribeResult.ok "" :=
  transcribe_audio_zero_segments (rtOk []) "a.wav" "base" "en" rfl rfl rfl

/-- C3: for every sequence of segments produced by the runtime (any texts,
any parameters), the string returned by `transcribe_audio` has no leading
or trailing whitespace. -/
theorem transcribe_audio_no_edge_ws (rt : Runtime) (ap ms lang t : String)
    (h : (transcribe_audio rt ap ms lang).1 = TranscribeResult.ok t) :
    noEdgeWs t = true := by
  unfold transcribe_audio at h
  cases himp : rt.importable with
  | false => simp [himp] at h
  | true =>
    cases hc : rt.construct ⟨ms, "cpu", "int8"⟩ with
    | error e => simp [himp, hc] at h
    | ok u =>
      cases hi : rt.infer ⟨ap, lang, 1, 1, true, 500⟩ with
      | error e => simp [himp, hc, hi] at h
      | ok segs =>
        simp [himp, hc, hi] at h
        rw [← h]
        exact noEdgeWs_pyStrip _

/-- Witness for C3: the returned transcript at a concrete runtime has no
leading or trailing whitespace. -/
theorem transcribe_audio_no_edge_ws_witness : noEdgeWs "Hi there" = true :=
  transcribe_audio_no_edge_ws (rtOk [" Hi ", "there  "]) "a.wav" "base" "en"
    "Hi there" (by decide)

/-- C4: if the external inference library cannot be imported, the process
writes a message containing an install instruction to standard error,
writes nothing to standard output, and exits with status 1. -/
theorem main_run_import_error (rt : Runtime) (pe : String → Bool)
    (prog audio : String) (rest : List String)
    (himp : rt.importable = false) (hpe : pe audio = true) :
    (main_run rt pe (prog :: audio :: rest)).code = 1 ∧
    (main_run rt pe (prog :: audio :: rest)).stdout = [] ∧
    (main_run rt pe (prog :: audio :: rest)).stderr = [importErrorMsg] ∧
    strContains "pip install faster-whisper" importErrorMsg = true := by
  refine ⟨?_, ?_, ?_, by decide⟩ <;>
    simp [main_run, transcribe_audio, himp, hpe]

/-- Witness for C4: an unavailable runtime on an existing file exits 1
with only the install-instruction message on standard error. -/
theorem main_run_import_error_witness :
    (main_run rtNoImport (fun _ => true) ["prog", "a.wav"]).code = 1 ∧
    (main_run rtNoImport (fun _ => true) ["prog", "a.wav"]).stdout = [] ∧
    (main_run rtNoImport (fun _ => true) ["prog", "a.wav"]).stderr =
      [importErrorMsg] ∧
    strContains "pip install faster-whisper" importErrorMsg = true :=
  main_run_import_error rtNoImport (fun _ => true) "prog" "a.wav" [] rfl rfl

/-- C5: if session construction or the inference call raises any error
other than the runtime being unavailable, the process writes a diagnostic
to standard error that includes the underlying error's description,
produces no partial transcript on standard output, and exits with status
1; the call trace shows no retry (at most one construction and one
inference call). -/
theorem main_run_transcription_failure (rt : Runtime) (pe : String → Bool)
    (prog audio ms lang e : String)
    (hpe : pe audio = true) (himp : rt.importable = true)
    (herr : rt.construct ⟨ms, "cpu", "int8"⟩ = Except.error e ∨
      (rt.construct ⟨ms, "cpu", "int8"⟩ = Except.ok () ∧
       rt.infer ⟨audio, lang, 1, 1, true, 500⟩ = Except.error e)) :
    (main_run rt pe [prog, audio, ms, lang]).code = 1 ∧
    (main_run rt pe [prog, audio, ms, lang]).stdout = [] ∧
    (main_run rt pe [prog, audio, ms, lang]).stderr = [transcribeErrorMsg e] ∧
    ((main_run rt pe [prog, audio, ms, lang]).events =
        [RtEvent.invoked audio ms lang,
         RtEvent.constructed ⟨ms, "cpu", "int8"⟩] ∨
     (main_run rt pe [prog, audio, ms, lang]).events =
        [RtEvent.invoked audio ms lang,
         RtEvent.constructed ⟨ms, "cpu", "int8"⟩,
         RtEvent.inferred ⟨audio, lang, 1, 1, true, 500⟩]) := by
  rcases herr with hc | ⟨hc, hi⟩
  · refine ⟨?_, ?_, ?_, Or.inl ?_⟩ <;>
      simp [main_run, transcribe_audio, himp, hpe, hc]
  · refine ⟨?_, ?_, ?_, Or.inr ?_⟩ <;>
      simp [main_run, transcribe_audio, himp, hpe, hc, hi]

/-- Witness for C5: a runtime whose inference call raises `"boom"` makes
the process exit 1 with the diagnostic naming `"boom"` and no standard
output. -/
theorem main_run_transcription_failure_witness :
    (main_run (rtInferRaise "boom") (fun _ => true)
        ["prog", "a.wav", "base", "en"]).code = 1 ∧
    (main_run (rtInferRaise "boom") (fun _ => true)
        ["prog", "a.wav", "base", "en"]).stdout = [] ∧
    (main_run (rtInferRaise "boom") (fun _ => true)
        ["prog", "a.wav", "base", "en"]).stderr =
      [transcribeErrorMsg "boom"] ∧
    ((main_run (rtInferRaise "boom") (fun _ => true)
        ["prog", "a.wav", "base", "en"]).events =
        [RtEvent.invoked "a.wav" "base" "en",
         RtEvent.constructed ⟨"base", "cpu", "int8"⟩] ∨
     (main_run (rtInferRaise "boom") (fun _ => true)
        ["prog", "a.wav", "base", "en"]).events =
        [RtEvent.invoked "a.wav" "base" "en",
         RtEvent.constructed ⟨"base", "cpu", "int8"⟩,
         RtEvent.inferred ⟨"a.wav", "en", 1, 1, true, 500⟩]) :=
  main_run_transcription_failure (rtInferRaise "boom") (fun _ => true)
    "prog" "a.wav" "base" "en" "boom" rfl rfl (Or.inr ⟨rfl, rfl⟩)

/-- C6: for every invocation whose audio_file path does not exist on
disk, the CLI writes a diagnostic naming the missing path to standard
error and exits with status 1, and the transcribe operation is never
invoked (empty event trace). -/
theorem main_run_missing_file (rt : Runtime) (pe : String → Bool)
    (prog audio : String) (rest : List String) (hpe : pe audio = false) :
    main_run rt pe (prog :: audio :: rest) =
      ⟨1, [], [fileNotFoundMsg audio], []⟩ ∧
    strContains audio (fileNotFoundMsg audio) = true := by
  constructor
  · simp [main_run, hpe]
  · exact strContains_suffix "Error: Audio file not found: " audio

/-- Witness for C6: a nonexistent path at a concrete invocation. -/
theorem main_run_missing_file_witness :
    main_run (rtOk []) (fun _ => false) ["prog", "missing.wav"] =
      ⟨1, [], [fileNotFoundMsg "missing.wav"], []⟩ ∧
    strContains "missing.wav" (fileNotFoundMsg "missing.wav") = true :=
  main_run_missing_file (rtOk []) (fun _ => false) "prog" "missing.wav" [] rfl

/-- C7: if the program is invoked with no arguments beyond the program
name, it writes the usage message to standard error and exits with
status 1 without performing any transcription (empty event trace). -/
theorem main_run_usage (rt : Runtime) (pe : String → Bool) (prog : String) :
    main_run rt pe [prog] =
      ⟨1, [], [usageMsg1, usageMsg2, usageMsg3], []⟩ := rfl

/-- C8: `transcribe_audio` constructs exactly one inference session,
configured with CPU execution and int8 compute precision, and issues
exactly one inference call with beam width 1, best-of 1, voice-activity
filtering enabled with a minimum silence duration of 500 ms, and the
language set to the input language parameter: whenever the library is
importable and session construction succeeds, the call trace is exactly
one construction followed by exactly one inference call with those
parameters. -/
theorem transcribe_audio_single_configured_calls (rt : Runtime)
    (ap ms lang : String)
    (himp : rt.importable = true)
    (hcon : rt.construct ⟨ms, "cpu", "int8"⟩ = Except.ok ()) :
    (transcribe_audio rt ap ms lang).2 =
      [RtEvent.invoked ap ms lang,
       RtEvent.constructed ⟨ms, "cpu", "int8"⟩,
       RtEvent.inferred ⟨ap, lang, 1, 1, true, 500⟩] := by
  cases hi : rt.infer ⟨ap, lang, 1, 1, true, 500⟩ with
  | error e => simp [transcribe_audio, himp, hcon, hi]
  | ok segs => simp [transcribe_audio, himp, hcon, hi]

/-- Witness for C8: the trace at a concrete runtime and arguments. -/
theorem transcribe_audio_single_configured_calls_witness :
    (transcribe_audio (rtOk []) "a.wav" "base" "en").2 =
      [RtEvent.invoked "a.wav" "base" "en",
       RtEvent.constructed ⟨"base", "cpu", "int8"⟩,
       RtEvent.inferred ⟨"a.wav", "en", 1, 1, true, 500⟩] :=
  transcribe_audio_single_configured_calls (rtOk []) "a.wav" "base" "en"
    rfl rfl

/-- C9: a segment whose text is entirely whitespace still contributes a
join separator, so between two non-empty segments it produces two
consecutive spaces (segments `["a", s, "b"]` with `s` all-whitespace
yield `"a  b"`), while interior segment whitespace, including newlines,
is preserved unmodified. -/
theorem whitespace_segment_keeps_separator (s : String)
    (h : s.toList.all isPySpace = true) :
    collect_transcript ["a", s, "b"] = "a  b" ∧
    collect_transcript ["ab", "cd\nef"] = "ab cd\nef" := by
  constructor
  · have hs : pyStrip s = "" := pyStrip_eq_empty_of_all_space s h
    unfold collect_transcript
    rw [List.map_cons, List.map_cons, List.map_cons, List.map_nil, hs]
    decide
  · decide

/-- Witness for C9: the all-whitespace segment `"   "` between `"a"` and
`"b"` yields `"a  b"`. -/
theorem whitespace_segment_keeps_separator_witness :
    collect_transcript ["a", "   ", "b"] = "a  b" ∧
    collect_transcript ["ab", "cd\nef"] = "ab cd\nef" :=
  whitespace_segment_keeps_separator "   " (by decide)

/-- C10: two invocations that agree on the first three command-line
arguments and on the external runtime produce identical process results;
arguments beyond the third are silently ignored. -/
theorem main_run_ignores_extra_args (rt : Runtime) (pe : String → Bool)
    (prog a b c : String) (r1 r2 : List String) :
    main_run rt pe (prog :: a :: b :: c :: r1) =
      main_run rt pe (prog :: a :: b :: c :: r2) := rfl
